import Mathlib

/-!
# Verification of the mortar-rs core against its specification

Shallow embedding of the repository's core modules and proofs that settle
the spec's claims against them:

* `src/dag.rs` — the `DAG` type with `add_node`, `add_dep`, `deps` and the
  `transitive_reduction` layering loop (modelled with explicit fuel, since
  the Rust `loop` has no structural termination measure).
* `src/label.rs` — the nom-based `Label::parse` pipeline, with each regex
  re-expressed as an executable scanner over `List Char`.
* `src/env/mod.rs` and `src/env/ref.rs` — `Reference`, `Mapping`,
  `Environment` and the command-list builders `as_commands`/`run_command`.
  Rust's `std::process::Command` is modelled as a `{program, args}` pair;
  panics (`expect`, `todo!`, `unwrap` on `None`) are modelled as `Option`/
  `Except` failure.

Rust `HashMap<String, Vec<String>>` is modelled as an association list in
iteration order; claims that depend on layer ordering are settled at a
concrete iteration order (and are in fact order-insensitive, as noted at
each theorem).
-/

/-! ## src/dag.rs -/

/-- `DAG` from `src/dag.rs`: `graph: HashMap<String, Vec<String>>`, a map
from node id to that node's declared dependency list.  The hash map is
modelled as an association list whose order stands for the map's
iteration order; keys are distinct in any state reachable through
`HashMap::insert`. -/
structure DAG where
  graph : List (String × List String)
deriving DecidableEq

/-- Key list of the underlying map (`self.graph.keys()`). -/
def DAG.keys (g : DAG) : List String :=
  g.graph.map Prod.fst

/-- Association-list lookup (first matching key), the model of
`HashMap::get`/indexing. -/
def lookupDeps : List (String × List String) → String → Option (List String)
  | [], _ => none
  | (k, v) :: rest, name => if k = name then some v else lookupDeps rest name

/-- `DAG::deps`: `self.graph[&name].clone()`.  The Rust indexing panics
when `name` is absent; the panic is modelled as `none`. -/
def DAG.deps? (g : DAG) (name : String) : Option (List String) :=
  lookupDeps g.graph name

/-- `DAG::add_node`: `self.graph.insert(name, deps.unwrap_or(vec![]))` —
overwrites the entry when the key is already present, else appends it. -/
def insertNode : List (String × List String) → String → List String → List (String × List String)
  | [], name, ds => [(name, ds)]
  | (k, v) :: rest, name, ds =>
    if k = name then (k, ds) :: rest else (k, v) :: insertNode rest name ds

def DAG.add_node (g : DAG) (name : String) (deps : Option (List String)) : DAG :=
  ⟨insertNode g.graph name (deps.getD [])⟩

/-- Append `dep` to the dependency list of the first entry keyed `name`
(`get_mut(&name)...push(dep)`); unchanged when `name` is absent. -/
def updateDeps : List (String × List String) → String → String → List (String × List String)
  | [], _, _ => []
  | (k, v) :: rest, name, dep =>
    if k = name then (k, v ++ [dep]) :: rest else (k, v) :: updateDeps rest name dep

/-- `DAG::add_dep`: `self.graph.get_mut(&name).expect(...).push(dep)`.
The `expect` panic on an unregistered `name` is modelled as an
`Except.error` carrying the panic message; the dependency `dep` itself is
never looked up. -/
def DAG.add_dep (g : DAG) (name dep : String) : Except String DAG :=
  match lookupDeps g.graph name with
  | some _ => Except.ok ⟨updateDeps g.graph name dep⟩
  | none => Except.error ("Node \"" ++ name ++ "\" does not exist")

/-- The inner condition of the layering loop:
`self.deps(item.to_owned()).iter().any(|x| layer.contains(x))`.
Inside `transitive_reduction` every scanned `item` originates from the
key list, so `deps` never hits its panic branch there; the `getD []`
default is unreachable in that context. -/
def depHitsLayer (g : DAG) (layer : List String) (item : String) : Bool :=
  ((g.deps? item).getD []).any (fun x => layer.contains x)

/-- One step of the inner `for item in layer` body of
`DAG::transitive_reduction`: when `item` has a dependency in its current
layer (as snapshotted in `tr`), push it onto the next layer of `temp_tr`
(appending a fresh trailing layer when `id` is the last index) and remove
its first occurrence from layer `id`, setting `changed`. -/
def passItem (g : DAG) (layer : List String) (id : Nat)
    (st : List (List String) × Bool) (item : String) : List (List String) × Bool :=
  if depHitsLayer g layer item then
    let temp := st.1
    let temp2 :=
      if id = temp.length - 1 then temp ++ [[item]]
      else temp.set (id + 1) ((temp.getD (id + 1) []) ++ [item])
    (temp2.set id ((temp2.getD id []).erase item), true)
  else st

/-- The `for item in layer` loop, folded over the snapshot of a layer. -/
def passFold (g : DAG) (layer : List String) (id : Nat)
    (items : List String) (st : List (List String) × Bool) : List (List String) × Bool :=
  items.foldl (passItem g layer id) st

/-- One full `for (id, layer) in tr.iter().enumerate()` scan.  At the top
of every iteration of the Rust `loop`, `temp_tr` equals `tr` (it is
initialized as `tr.clone()` and `tr = temp_tr.clone()` ends each pass),
so the scan starts the fold from `(tr, changed)`. -/
def onePass (g : DAG) (tr : List (List String)) (changed : Bool) : List (List String) × Bool :=
  (tr.enum).foldl (fun st p => passFold g p.2 p.1 p.2 st) (tr, changed)

/-- The Rust `loop` of `DAG::transitive_reduction`, with explicit fuel.
Note that `changed` is never reset between passes, and the loop exits via
`if !changed_last && changed { break; }` followed by
`changed_last = changed;`. -/
def transitive_reduction_go (g : DAG) :
    Nat → List (List String) → Bool → Bool → Option (List (List String))
  | 0, _, _, _ => none
  | fuel + 1, tr, changed_last, changed =>
    let st := onePass g tr changed
    if !changed_last && st.2 then some st.1
    else transitive_reduction_go g fuel st.1 st.2 st.2

/-- `DAG::transitive_reduction` (the spec's `layers()`): start from the
single layer holding every key, then iterate the scan.  `fuel` bounds the
number of passes; a `none` result means the Rust loop has not exited
within `fuel` passes. -/
def DAG.transitive_reduction (g : DAG) (fuel : Nat) : Option (List (List String)) :=
  transitive_reduction_go g fuel [g.keys] false false

/-- The diamond graph `{a: [], b: [a], c: [a], d: [b, c]}` used by the
spec's layering example, at one concrete map-iteration order. -/
def diamondDAG : DAG :=
  ⟨[("a", []), ("b", ["a"]), ("c", ["a"]), ("d", ["b", "c"])]⟩

/-- A graph whose single node has no dependencies. -/
def noDepDAG : DAG :=
  ⟨[("a", [])]⟩

example : diamondDAG.transitive_reduction 5 = some [["a"], ["b", "c", "d"]] := by decide
example : noDepDAG.transitive_reduction 3 = none := by decide
example : (DAG.mk [("a", []), ("b", ["a"])]).transitive_reduction 5
    = some [["a"], ["b"]] := by decide

/-! ### Behaviour of one scan starting from a single layer

`transitive_reduction` starts from `[keys]`, so the first scan is a fold
of `passItem` over that one layer.  The two lemmas below compute that
fold in closed form: the items whose dependency test fires are exactly
`keys.filter (depHitsLayer g keys)`, they are appended (in order) to a
fresh second layer, and each is erased from the first layer. -/

theorem passItem_two (g : DAG) (layer : List String) (A B : List String) (b : Bool)
    (item : String) :
    passItem g layer 0 ([A, B], b) item =
      if depHitsLayer g layer item then ([A.erase item, B ++ [item]], true) else ([A, B], b) := by
  unfold passItem
  split <;> simp

theorem passItem_one (g : DAG) (layer : List String) (A : List String) (b : Bool)
    (item : String) :
    passItem g layer 0 ([A], b) item =
      if depHitsLayer g layer item then ([A.erase item, [item]], true) else ([A], b) := by
  unfold passItem
  split <;> simp

theorem passFold_two (g : DAG) (layer : List String) :
    ∀ (items A B : List String) (b : Bool),
      passFold g layer 0 items ([A, B], b) =
        ([A.diff (items.filter (depHitsLayer g layer)),
          B ++ items.filter (depHitsLayer g layer)],
         b || !(items.filter (depHitsLayer g layer)).isEmpty)
  | [], A, B, b => by simp [passFold]
  | i :: items, A, B, b => by
    rw [passFold, List.foldl_cons, passItem_two]
    by_cases h : depHitsLayer g layer i
    · rw [if_pos h]
      rw [show List.foldl (passItem g layer 0) ([A.erase i, B ++ [i]], true) items
            = passFold g layer 0 items ([A.erase i, B ++ [i]], true) from rfl]
      rw [passFold_two g layer items (A.erase i) (B ++ [i]) true]
      simp [List.filter_cons, h, List.diff_cons]
    · rw [if_neg h]
      rw [show List.foldl (passItem g layer 0) ([A, B], b) items
            = passFold g layer 0 items ([A, B], b) from rfl]
      rw [passFold_two g layer items A B b]
      simp [List.filter_cons, h]

theorem passFold_one (g : DAG) (layer : List String) :
    ∀ (items A : List String) (b : Bool),
      passFold g layer 0 items ([A], b) =
        if items.filter (depHitsLayer g layer) = [] then ([A], b)
        else ([A.diff (items.filter (depHitsLayer g layer)),
               items.filter (depHitsLayer g layer)], true)
  | [], A, b => by simp [passFold]
  | i :: items, A, b => by
    rw [passFold, List.foldl_cons, passItem_one]
    by_cases h : depHitsLayer g layer i
    · rw [if_pos h]
      rw [show List.foldl (passItem g layer 0) ([A.erase i, [i]], true) items
            = passFold g layer 0 items ([A.erase i, [i]], true) from rfl]
      rw [passFold_two g layer items (A.erase i) [i] true]
      simp [List.filter_cons, h, List.diff_cons]
    · rw [if_neg h]
      rw [show List.foldl (passItem g layer 0) ([A], b) items
            = passFold g layer 0 items ([A], b) from rfl]
      rw [passFold_one g layer items A b]
      simp [List.filter_cons, h]

theorem onePass_single (g : DAG) (keys : List String) (b : Bool) :
    onePass g [keys] b =
      if keys.filter (depHitsLayer g keys) = [] then ([keys], b)
      else ([keys.diff (keys.filter (depHitsLayer g keys)),
             keys.filter (depHitsLayer g keys)], true) := by
  rw [show onePass g [keys] b = passFold g keys 0 keys ([keys], b) from rfl]
  exact passFold_one g keys keys keys b

/-- When the first scan moves nothing, `changed` stays `false`, the break
condition `!changed_last && changed` never fires, and the loop runs
forever: no amount of fuel makes it return. -/
theorem tred_eq_none_of_no_change (g : DAG)
    (h : g.keys.filter (depHitsLayer g g.keys) = []) :
    ∀ fuel, g.transitive_reduction fuel = none := by
  intro fuel
  induction fuel with
  | zero => rfl
  | succ n ih =>
    unfold DAG.transitive_reduction at ih ⊢
    unfold transitive_reduction_go
    rw [onePass_single, if_pos h]
    simpa using ih

/-- When `transitive_reduction` returns at all, it returns immediately
after the first scan (because `changed` is never reset and the break
condition is `!changed_last && changed`), so the result is exactly the
two-layer state the first scan produces. -/
theorem tred_eq_some_shape (g : DAG) {fuel : Nat} {res : List (List String)}
    (h : g.transitive_reduction fuel = some res) :
    g.keys.filter (depHitsLayer g g.keys) ≠ [] ∧
    res = [g.keys.diff (g.keys.filter (depHitsLayer g g.keys)),
           g.keys.filter (depHitsLayer g g.keys)] := by
  by_cases hf : g.keys.filter (depHitsLayer g g.keys) = []
  · rw [tred_eq_none_of_no_change g hf fuel] at h
    exact absurd h (by simp)
  · refine ⟨hf, ?_⟩
    cases fuel with
    | zero => exact absurd h (by simp [DAG.transitive_reduction, transitive_reduction_go])
    | succ n =>
      unfold DAG.transitive_reduction transitive_reduction_go at h
      rw [onePass_single, if_neg hf] at h
      simpa using h.symm

/-! ### Claim theorems about the DAG -/

/-- C1: the spec claims that whenever `layers()` returns, every registered
dependency of a node lies in a strictly earlier layer, and that the
diamond graph `{a: [], b: [a], c: [a], d: [b, c]}` yields exactly 3
layers with `d` alone in layer 2.  The code instead exits the loop at the
end of the first scan that moves anything (`changed` is never reset, so
`!changed_last && changed` holds right after the first changing scan):
the diamond graph yields only 2 layers, with `d` in the same layer as its
dependencies `b` and `c`.  The scan tests membership against the
unmodified snapshot of layer 0, so this outcome is the same for every
map-iteration order of the four nodes. -/
theorem dag_diamond_two_layers :
    diamondDAG.transitive_reduction 5 = some [["a"], ["b", "c", "d"]] ∧
    (∃ layer, some layer = (diamondDAG.transitive_reduction 5).bind (·.getLast?) ∧
      "d" ∈ layer ∧ "b" ∈ layer ∧ "b" ∈ (diamondDAG.deps? "d").getD []) := by
  refine ⟨by decide, ["b", "c", "d"], by decide, by decide, by decide, by decide⟩

/-- C5: the spec claims `layers()` terminates on every acyclic graph,
in particular on a graph with no dependencies at all, where it should
stop with every node in layer 0.  In the code the first scan of such a
graph moves nothing, `changed` stays `false`, the break condition
`!changed_last && changed` can never fire, and the loop runs forever:
no fuel bound suffices. -/
theorem dag_no_deps_never_returns :
    ∀ fuel, noDepDAG.transitive_reduction fuel = none :=
  tred_eq_none_of_no_change noDepDAG (by decide)

/-- Re-reading a dependency list after `updateDeps` sees exactly the old
list with the new dependency appended. -/
theorem lookupDeps_updateDeps (name dep : String) :
    ∀ l : List (String × List String),
      lookupDeps (updateDeps l name dep) name = (lookupDeps l name).map (· ++ [dep])
  | [] => rfl
  | (k, v) :: rest => by
    by_cases h : k = name
    · simp [updateDeps, lookupDeps, h]
    · simp [updateDeps, lookupDeps, h, lookupDeps_updateDeps name dep rest]

/-- C8: `add_dep(id, dep)` appends `dep` to `id`'s dependency list when
`id` is registered — with no check whatsoever on `dep`, which may name an
id that was never added — and fails when `id` was never added; the
failure is surfaced to the caller (in the Rust source as an `expect`
panic carrying the message `Node "<id>" does not exist`, modelled here as
the `Except.error` value). -/
theorem dag_add_dep_spec (g : DAG) (name dep : String) :
    (∀ ds, g.deps? name = some ds →
      g.add_dep name dep = Except.ok ⟨updateDeps g.graph name dep⟩ ∧
      (DAG.mk (updateDeps g.graph name dep)).deps? name = some (ds ++ [dep])) ∧
    (g.deps? name = none →
      g.add_dep name dep = Except.error ("Node \"" ++ name ++ "\" does not exist")) := by
  constructor
  · intro ds h
    refine ⟨?_, ?_⟩
    · unfold DAG.add_dep
      rw [show lookupDeps g.graph name = g.deps? name from rfl, h]
    · show lookupDeps (updateDeps g.graph name dep) name = some (ds ++ [dep])
      rw [lookupDeps_updateDeps, show lookupDeps g.graph name = g.deps? name from rfl, h,
        Option.map_some']
  · intro h
    unfold DAG.add_dep
    rw [show lookupDeps g.graph name = g.deps? name from rfl, h]

/-- Witness for `dag_add_dep_spec`: on the one-node graph `{a: []}`,
adding the dependency `"z"` (never registered) to `"a"` succeeds and
appends, while adding to the unregistered `"b"` fails with the
node-not-found message. -/
theorem dag_add_dep_spec_witness :
    (DAG.mk [("a", [])]).add_dep "a" "z" = Except.ok (DAG.mk [("a", ["z"])]) ∧
    (DAG.mk [("a", ["z"])]).deps? "a" = some ["z"] ∧
    (DAG.mk [("a", [])]).add_dep "b" "z" = Except.error ("Node \"b\" does not exist") := by
  refine ⟨((dag_add_dep_spec (DAG.mk [("a", [])]) "a" "z").1 [] rfl).1, ?_, ?_⟩
  · exact ((dag_add_dep_spec (DAG.mk [("a", [])]) "a" "z").1 [] rfl).2
  · exact (dag_add_dep_spec (DAG.mk [("a", [])]) "b" "z").2 rfl

/-- C10: whenever `transitive_reduction` returns, the layers partition
the registered node set: every key occurs in exactly one layer, and the
layers contain nothing but keys.  This holds because the function can
only return right after the first scan, which moves each triggered key
from the initial all-keys layer to a fresh second layer. -/
theorem dag_layers_partition (g : DAG) (fuel : Nat) (res : List (List String))
    (hnd : g.keys.Nodup) (h : g.transitive_reduction fuel = some res) :
    (∀ x ∈ g.keys, res.countP (fun layer => decide (x ∈ layer)) = 1) ∧
    (∀ layer ∈ res, ∀ x ∈ layer, x ∈ g.keys) := by
  obtain ⟨hne, hshape⟩ := tred_eq_some_shape g h
  subst hshape
  constructor
  · intro x hx
    by_cases hts : x ∈ g.keys.filter (depHitsLayer g g.keys)
    · have hdiff : x ∉ g.keys.diff (g.keys.filter (depHitsLayer g g.keys)) := by
        rw [List.Nodup.mem_diff_iff hnd]
        rintro ⟨-, h2⟩
        exact h2 hts
      simp [List.countP_cons, hts, hdiff]
    · have hdiff : x ∈ g.keys.diff (g.keys.filter (depHitsLayer g g.keys)) :=
        (List.Nodup.mem_diff_iff hnd).2 ⟨hx, hts⟩
      simp [List.countP_cons, hts, hdiff]
  · intro layer hl x hx
    simp only [List.mem_cons, List.not_mem_nil, or_false] at hl
    rcases hl with hl | hl
    · exact List.diff_subset _ _ (hl ▸ hx)
    · exact List.mem_of_mem_filter (hl ▸ hx)

/-- Witness for `dag_layers_partition`: the two-node graph
`{a: [], b: [a]}` (the unit test of `src/dag.rs`) returns
`[["a"], ["b"]]`, a partition of its key set. -/
theorem dag_layers_partition_witness :
    (∀ x ∈ (DAG.mk [("a", []), ("b", ["a"])]).keys,
      ([["a"], ["b"]] : List (List String)).countP (fun layer => decide (x ∈ layer)) = 1) ∧
    (∀ layer ∈ ([["a"], ["b"]] : List (List String)),
      ∀ x ∈ layer, x ∈ (DAG.mk [("a", []), ("b", ["a"])]).keys) :=
  dag_layers_partition (DAG.mk [("a", []), ("b", ["a"])]) 5 [["a"], ["b"]]
    (by decide) (by decide)

/-! ## src/label.rs

`Label::parse` runs a nom parser over the label text and then fills in
defaults from `current_repository`/`current_package`.  Each regex is
re-expressed as an executable scanner over `List Char`; the parsers
return `(rest, matched)` in nom's order, `none` standing for a nom
error.  The `HashMap<&str, &str>` built by the parser has only the four
literal keys `repository`/`separator`/`package`/`target`, so it is
modelled as a structure of four optional fields. -/

/-- `Label` from `src/label.rs`. -/
structure Label where
  repository : String
  package : String
  target : String
deriving DecidableEq

/-- Character class of the `repository` regex `^[-A-Za-z0-9/._]+`. -/
def isRepoChar (c : Char) : Bool :=
  c == '-' || c.isAlpha || c.isDigit || c == '/' || c == '.' || c == '_'

/-- Character class of the `target` regex
`^[a-zA-Z0-9!%@^_#"$&'()*\-+,;<=>?\[\]{|}~/. ]+`; `Char.ofNat` codes 34,
39, 123 and 125 are the double quote, apostrophe and curly braces. -/
def isTargetChar (c : Char) : Bool :=
  c.isAlpha || c.isDigit ||
  c == '!' || c == '%' || c == '@' || c == '^' || c == '_' || c == '#' ||
  c == Char.ofNat 34 || c == '$' || c == '&' || c == Char.ofNat 39 ||
  c == '(' || c == ')' || c == '*' || c == '-' || c == '+' || c == ',' ||
  c == ';' || c == '<' || c == '=' || c == '>' || c == '?' ||
  c == '[' || c == ']' || c == Char.ofNat 123 || c == '|' || c == Char.ofNat 125 ||
  c == '~' || c == '/' || c == '.' || c == ' '

/-- Character class `[^\n$:]` of the `package` regex. -/
def isPackageChar (c : Char) : Bool :=
  !(c == '\n' || c == '$' || c == ':')

/-- A greedy anchored regex `^[class]+` as a nom parser: the longest
nonempty prefix inside the class, or failure. -/
def reMatchGreedy (cls : Char → Bool) (input : List Char) : Option (List Char × List Char) :=
  match input.takeWhile cls with
  | [] => none
  | _ => some (input.dropWhile cls, input.takeWhile cls)

/-- The `repository` parser (`re_match` of `^[-A-Za-z0-9/._]+`). -/
def repositoryP (input : List Char) : Option (List Char × List Char) :=
  reMatchGreedy isRepoChar input

/-- The `target` parser (`re_match` of the target class regex). -/
def targetP (input : List Char) : Option (List Char × List Char) :=
  reMatchGreedy isTargetChar input

/-- The lazy `package` regex `^[^\n$:]+?(?=:(?:.|\s)+$|$)`: starting from
the shortest nonempty prefix of class characters, stop at the first
position whose remainder is either empty or a colon followed by at least
one character; fail when no such position is reachable (a `\n`/`$`
occurs first, or the only colon is the final character). -/
def packageScan (acc : List Char) : List Char → Option (List Char × List Char)
  | [] => if acc.isEmpty then none else some ([], acc)
  | c :: rest =>
    if acc.isEmpty then
      if isPackageChar c then packageScan (acc ++ [c]) rest else none
    else if c == ':' then
      if rest.isEmpty then none else some (c :: rest, acc)
    else if isPackageChar c then packageScan (acc ++ [c]) rest else none

/-- The `package` parser (`fre_match` of the lazy lookahead regex). -/
def packageP (input : List Char) : Option (List Char × List Char) :=
  packageScan [] input

/-- `root`: `alt((tag("//"), tag("!/")))`. -/
def rootP : List Char → Option (List Char × List Char)
  | '/' :: '/' :: rest => some (rest, ['/', '/'])
  | '!' :: '/' :: rest => some (rest, ['!', '/'])
  | _ => none

/-- `tag(":")`. -/
def tagColon : List Char → Option (List Char)
  | ':' :: rest => some rest
  | _ => none

/-- The parse result map: `HashMap<&str, &str>` with the four literal
keys used by `Label::parse`. -/
structure ParsedParts where
  repository : Option (List Char) := none
  separator : Option (List Char) := none
  package : Option (List Char) := none
  target : Option (List Char) := none
deriving DecidableEq

/-- `opt(preceded(tag(":"), target))`: on failure of the inner parser the
input is left untouched and the optional result is `none`. -/
def optColonTarget (input : List Char) : List Char × Option (List Char) :=
  match tagColon input with
  | some r1 =>
    match targetP r1 with
    | some (r2, t) => (r2, some t)
    | none => (input, none)
  | none => (input, none)

/-- First top-level alternative of `Label::parse`:
`all_consuming(preceded(tag("@"), tuple((repository, root, alt((package, preceded(tag(":"), target), pair(package, preceded(tag(":"), target))))))))`.
nom's `alt` commits to the first succeeding branch; a later
`all_consuming` failure does not reopen it. -/
def branchAtInnerAlt (input : List Char) : Option ParsedParts :=
  match input with
  | '@' :: afterAt =>
    match repositoryP afterAt with
    | some (r1, repoM) =>
      match rootP r1 with
      | some (r2, sepM) =>
        let altA : Option (List Char × ParsedParts) :=
          (packageP r2).map (fun pr => (pr.1, { package := some pr.2 }))
        let altB : Option (List Char × ParsedParts) :=
          match tagColon r2 with
          | some r3 => (targetP r3).map (fun tr => (tr.1, { target := some tr.2 }))
          | none => none
        let altC : Option (List Char × ParsedParts) :=
          match packageP r2 with
          | some (r3, pkgM) =>
            match tagColon r3 with
            | some r4 =>
              (targetP r4).map (fun tr => (tr.1, { package := some pkgM, target := some tr.2 }))
            | none => none
          | none => none
        match altA <|> altB <|> altC with
        | some (restF, parts) =>
          if restF.isEmpty then
            some { parts with repository := some repoM, separator := some sepM }
          else none
        | none => none
      | none => none
    | none => none
  | _ => none

/-- Second top-level alternative:
`all_consuming(preceded(tag("@"), tuple((repository, root, package, opt(preceded(tag(":"), target))))))`. -/
def branchAtOptTarget (input : List Char) : Option ParsedParts :=
  match input with
  | '@' :: afterAt =>
    match repositoryP afterAt with
    | some (r1, repoM) =>
      match rootP r1 with
      | some (r2, sepM) =>
        match packageP r2 with
        | some (r3, pkgM) =>
          let (r4, tgtM) := optColonTarget r3
          if r4.isEmpty then
            some { repository := some repoM, separator := some sepM,
                   package := some pkgM, target := tgtM }
          else none
        | none => none
      | none => none
    | none => none
  | _ => none

/-- Third top-level alternative:
`all_consuming(tuple((opt(root), package, opt(preceded(tag(":"), target)))))`. -/
def branchBare (input : List Char) : Option ParsedParts :=
  let (r1, sepM) :=
    match rootP input with
    | some (r, s) => (r, some s)
    | none => (input, none)
  match packageP r1 with
  | some (r2, pkgM) =>
    let (r3, tgtM) := optColonTarget r2
    if r3.isEmpty then
      some { separator := sepM, package := some pkgM, target := tgtM }
    else none
  | none => none

/-- Fourth top-level alternative:
`all_consuming(preceded(opt(tag(":")), target))`. -/
def branchLoneTarget (input : List Char) : Option ParsedParts :=
  let r1 :=
    match tagColon input with
    | some r => r
    | none => input
  match targetP r1 with
  | some (r2, tgtM) => if r2.isEmpty then some { target := some tgtM } else none
  | none => none

/-- The full nom pipeline of `Label::parse` up to the `hmap` value:
`terminated(alt((...four alternatives...)), eof)` — each alternative is
already `all_consuming`, so the final `eof` is vacuous. -/
def parseParts (input : List Char) : Option ParsedParts :=
  branchAtInnerAlt input <|> branchAtOptTarget input <|> branchBare input <|>
    branchLoneTarget input

/-- Rust `str::split(sep)` over characters: the list of separated pieces;
an empty input yields one empty piece, so the result is never empty. -/
def splitOnChar (sep : Char) : List Char → List (List Char)
  | [] => [[]]
  | c :: rest =>
    match splitOnChar sep rest with
    | [] => [[]]
    | h :: t => if c == sep then [] :: h :: t else (c :: h) :: t

/-- `PathBuf::push` restricted to valid-UTF-8 paths: an absolute path
replaces the receiver, otherwise it is appended after a `/` separator
(no separator added when the receiver is empty or already ends in one).
No `.`/`..` normalization is performed. -/
def pathPushL (p q : List Char) : List Char :=
  if q.head? == some '/' then q
  else if p.isEmpty then q
  else if p.getLast? == some '/' then p ++ q
  else p ++ '/' :: q

def pathPush (p q : String) : String :=
  String.mk (pathPushL p.data q.data)

/-- `Label::parse` after the nom pipeline: fill `repository` from
`current_repository`, infer a missing `target` as the last `/`-segment
of — n.b. — the **repository** (failing when the repository is empty:
the `MissingTarget` case, modelled as `none` like any parse error), and
resolve `package` (verbatim when a root separator was parsed, path-joined
onto `current_package` otherwise, except when `current_package` is `"."`).
`Label::new` only converts the error side to a string, so this function
is also the model of `resolve`/`Label::new`. -/
def Label.parse (label current_repository current_package : String) : Option Label :=
  match parseParts label.data with
  | none => none
  | some parts =>
    let repo : List Char :=
      match parts.repository with
      | some r => r
      | none => current_repository.data
    let targetR : Option (List Char) :=
      match parts.target with
      | some v => some v
      | none =>
        if repo.isEmpty || (splitOnChar '/' repo).isEmpty then none
        else some ((splitOnChar '/' repo).getLastD [])
    match targetR with
    | none => none
    | some tgt =>
      some
        { repository := String.mk repo
          package :=
            if parts.separator.isSome && parts.package.isSome then
              match parts.package with
              | some pkg => String.mk pkg
              | none => current_package
            else if parts.package.isSome then
              match parts.package with
              | some pkg =>
                if current_package = "." then String.mk pkg
                else pathPush current_package (String.mk pkg)
              | none => current_package
            else current_package
          target := String.mk tgt }

example : Label.parse ":a_target" "default_repo" "default_package"
    = some ⟨"default_repo", "default_package", "a_target"⟩ := by decide
example : Label.parse "//a_package:a_target" "default_repo" "current_package"
    = some ⟨"default_repo", "a_package", "a_target"⟩ := by decide
example : Label.parse "something:abc" "test" "a_dir"
    = some ⟨"test", "a_dir/something", "abc"⟩ := by decide

/-! ### Claim theorems about label resolution -/

/-- C2: the spec claims that a root-marked label with a multi-segment
package and no explicit `:target` resolves with `target` equal to the
last segment of the resolved package (`resolve("//a/b", r, p).target ==
"b"`).  The code instead computes the default target from the
**repository** string (`repo.split("/").last()`), as this evaluation at
`r = "r"`, `p = "p"` shows: the target comes out as `"r"`, not `"b"`.
(The code's own error message — "it cannot be inferred from an empty
package" — names the package, making the slip explicit.) -/
theorem label_root_no_target_uses_repo :
    Label.parse "//a/b" "r" "p" = some ⟨"r", "a/b", "r"⟩ ∧
    Label.parse "//a/b" "some/repo" "p" = some ⟨"some/repo", "a/b", "repo"⟩ := by
  constructor <;> decide

/-- C4: the spec claims `resolve("@other//pkg:t", r, p) == {repository:
"other", package: "pkg", target: "t"}`.  In the code the greedy
`repository` regex class `[-A-Za-z0-9/._]+` also matches `/`, so on
`other//pkg:t` it consumes `other//pkg` and the subsequent `root` parser
fails; both `@`-alternatives therefore reject the label, which falls
through to the bare-package alternative and is parsed as the relative
package `@other//pkg`.  At `r = "r"`, `p = "p"` the result keeps the
ambient repository and joins the whole label onto `p`.  (The source's own
`fully_qualifed_path` unit test asserts `repository == "another_repo"`
for such a label and thus fails.) -/
theorem label_at_repo_never_matches :
    Label.parse "@other//pkg:t" "r" "p" = some ⟨"r", "p/@other//pkg", "t"⟩ := by
  decide

/-- A derived OS command: `Command::new(program)` plus its `arg`/`args`
calls, in order. -/
structure Command where
  program : String
  args : List String
deriving DecidableEq

/-- `Reference` from `src/env/ref.rs`. -/
structure Reference where
  env : Option Nat
  file : String
deriving DecidableEq

/-- `Reference::real_path`: the filesystem path as-is for a plain
reference; the environment-scoped case is `todo!()` in the source (an
unconditional panic), modelled as `none`. -/
def Reference.real_path (r : Reference) : Option String :=
  match r.env with
  | some _ => none
  | none => some r.file

/-- `Mapping` from `src/env/ref.rs`.  The Rust fields are named `from`
and `alias`; both collide with Lean keywords/commands, hence the
trailing underscores. -/
structure Mapping where
  from_ : Reference
  alias_ : Option String
  read_only : Bool
deriving DecidableEq

/-- Rust `.replace(':', "\\:")` on the character list: every colon is
replaced by the two characters `\` and `:`. -/
def escapeColons : List Char → List Char
  | [] => []
  | c :: rest => if c == ':' then '\\' :: ':' :: escapeColons rest else c :: escapeColons rest

/-- `Mapping::to_string`: the real path with every `:` escaped as `\:`,
then `:alias` appended unescaped when an alias is present. -/
def Mapping.to_string (m : Mapping) : Option String :=
  (m.from_.real_path).map fun rp =>
    let tmp := escapeColons rp.data
    match m.alias_ with
    | some a => String.mk (tmp ++ ':' :: a.data)
    | none => String.mk tmp

/-- `Mapping::from_fs`. -/
def Mapping.from_fs (path : String) (a : Option String) (ro : Bool) : Mapping :=
  ⟨⟨none, path⟩, a, ro⟩

/-- `Mapping::as_bind`: a `bindfs --no-allow-other -r <real path>
<mount path>` command, where the mount path is `out_dir` pushed with the
alias when present, else pushed with the **entire** source path
(`PathBuf::push`, so an absolute source replaces `out_dir`). -/
def Mapping.as_bind (m : Mapping) (out_dir : String) : Option Command :=
  let mount_path :=
    pathPush out_dir
      (match m.alias_ with
       | some a => a
       | none => m.from_.file)
  (m.from_.real_path).map fun rp =>
    { program := "bindfs", args := ["--no-allow-other", "-r", rp, mount_path] }

/-- `Environment` from `src/env/mod.rs`. -/
structure Environment where
  id : Nat
  loc : String
  inputs : List Mapping
deriving DecidableEq

/-- The `for_each` over `self.inputs` in `Environment::as_commands`,
threading the accumulated setup-command list and the accumulated `-b`
argument list; a panic inside `as_bind`/`to_string` aborts the whole
computation. -/
def asCommandsFold (loc : String) :
    List Mapping → List Command × List String → Option (List Command × List String)
  | [], acc => some acc
  | file :: rest, acc =>
    if file.read_only then
      match file.as_bind loc with
      | some b => asCommandsFold loc rest (acc.1 ++ [b], acc.2)
      | none => none
    else
      match file.to_string with
      | some s => asCommandsFold loc rest (acc.1, acc.2 ++ ["-b", s])
      | none => none

/-- `Environment::as_commands`: read-only mappings become `bindfs` setup
commands, writable mappings become `-b <rendered>` argument pairs of the
final `proot -r <loc> -w / ...` command, which is pushed last. -/
def Environment.as_commands (e : Environment) : Option (List Command) :=
  (asCommandsFold e.loc e.inputs ([], [])).map fun acc =>
    acc.1 ++ [{ program := "proot", args := ["-r", e.loc, "-w", "/"] ++ acc.2 }]

/-- `commands.last_mut().unwrap().arg(p).args(args)`: append the extra
arguments to the final command.  `as_commands` always produces at least
the `proot` command, so the empty case is unreachable there. -/
def appendArgsToLast (cmds : List Command) (extra : List String) : List Command :=
  match cmds.getLast? with
  | none => cmds
  | some last => cmds.dropLast ++ [{ last with args := last.args ++ extra }]

/-- `Environment::run_command`: `as_commands` with the action's program
name and arguments appended to the final command. -/
def Environment.run_command (e : Environment) (command : Command) : Option (List Command) :=
  (e.as_commands).map fun cmds => appendArgsToLast cmds (command.program :: command.args)

example :
    (Environment.mk 0 "/tmp/a b"
      [Mapping.from_fs "/tmp/b/3 3" none false, Mapping.from_fs "/tmp/c/7" none true]).as_commands
    = some
      [⟨"bindfs", ["--no-allow-other", "-r", "/tmp/c/7", "/tmp/c/7"]⟩,
       ⟨"proot", ["-r", "/tmp/a b", "-w", "/", "-b", "/tmp/b/3 3"]⟩] := by decide
example :
    (Environment.mk 0 "/tmp/a" [Mapping.from_fs "/nix" none false]).run_command
      ⟨"echo", ["Hello, World!"]⟩
    = some [⟨"proot", ["-r", "/tmp/a", "-w", "/", "-b", "/nix", "echo", "Hello, World!"]⟩] := by
  decide
example : (Mapping.from_fs "/a:a" (some "/b") true).to_string = some "/a\\:a:/b" := by decide
example :
    (Mapping.from_fs "/a:a" (some "/b") true).as_bind "/test"
    = some ⟨"bindfs", ["--no-allow-other", "-r", "/a:a", "/b"]⟩ := by decide

/-! ### Claim theorems about the environment builders -/

/-- The `-b` argument pairs contributed by the writable mappings'
rendered strings, in order. -/
def bindArgs : List String → List String
  | [] => []
  | s :: rest => "-b" :: s :: bindArgs rest

/-- A successful `as_bind` always produces a `bindfs` command. -/
theorem as_bind_program (m : Mapping) (loc : String) (c : Command)
    (h : m.as_bind loc = some c) : c.program = "bindfs" := by
  unfold Mapping.as_bind at h
  cases hr : m.from_.real_path with
  | none => rw [hr] at h; cases h
  | some rp => rw [hr] at h; cases h; rfl

theorem forall₂_as_bind_program (loc : String) :
    ∀ {ms : List Mapping} {cs : List Command},
      List.Forall₂ (fun m c => m.as_bind loc = some c) ms cs →
      ∀ c ∈ cs, c.program = "bindfs" := by
  intro ms cs h
  induction h with
  | nil => intro c hc; cases hc
  | cons hrel _ ih =>
    intro c hc
    rcases List.mem_cons.1 hc with hc | hc
    · exact hc ▸ as_bind_program _ _ _ hrel
    · exact ih c hc

/-- Closed form of the `for_each` accumulation in `as_commands`: the
setup commands are exactly the `as_bind`s of the read-only mappings (in
input order) and the extra arguments are exactly the `-b` pairs of the
writable mappings' renderings (in input order). -/
theorem asCommandsFold_shape (loc : String) :
    ∀ (inputs : List Mapping) (i0 : List Command) (a0 : List String)
      (acc : List Command × List String),
      asCommandsFold loc inputs (i0, a0) = some acc →
      ∃ setups ws,
        List.Forall₂ (fun m c => m.as_bind loc = some c) (inputs.filter (·.read_only)) setups ∧
        List.Forall₂ (fun m s => Mapping.to_string m = some s)
          (inputs.filter (fun m => !m.read_only)) ws ∧
        acc = (i0 ++ setups, a0 ++ bindArgs ws)
  | [], i0, a0, acc => by
    intro h
    refine ⟨[], [], List.Forall₂.nil, List.Forall₂.nil, ?_⟩
    simpa [asCommandsFold, bindArgs] using h.symm
  | file :: rest, i0, a0, acc => by
    intro h
    unfold asCommandsFold at h
    by_cases hro : file.read_only
    · rw [if_pos hro] at h
      cases hb : file.as_bind loc with
      | none => rw [hb] at h; cases h
      | some b =>
        rw [hb] at h
        obtain ⟨setups, ws, h₁, h₂, h₃⟩ := asCommandsFold_shape loc rest (i0 ++ [b]) a0 acc h
        refine ⟨b :: setups, ws, ?_, ?_, ?_⟩
        · rw [List.filter_cons_of_pos (by simpa using hro)]
          exact List.Forall₂.cons hb h₁
        · rw [List.filter_cons_of_neg (by simpa using hro)]
          exact h₂
        · simpa [List.append_assoc] using h₃
    · rw [if_neg hro] at h
      cases hs : file.to_string with
      | none => rw [hs] at h; cases h
      | some s =>
        rw [hs] at h
        obtain ⟨setups, ws, h₁, h₂, h₃⟩ := asCommandsFold_shape loc rest i0 (a0 ++ ["-b", s]) acc h
        refine ⟨setups, s :: ws, ?_, ?_, ?_⟩
        · rw [List.filter_cons_of_neg (by simpa using hro)]
          exact h₁
        · rw [List.filter_cons_of_pos (by simpa using hro)]
          exact List.Forall₂.cons hs h₂
        · simpa [bindArgs, List.append_assoc] using h₃

/-- C3: whenever `as_commands` returns a list (mappings scoped to an
environment hit the unimplemented `real_path` and abort instead), the
list consists of one `bindfs` setup command per read-only mapping, in
input order, followed by exactly one final sandbox-entry command —
`proot -r <loc> -w /` — that carries each writable mapping only as a
`-b <rendered>` argument pair; a writable mapping never becomes a setup
command and a read-only mapping never appears on the `proot` command. -/
theorem env_as_commands_shape (e : Environment) (cmds : List Command)
    (h : e.as_commands = some cmds) :
    ∃ setups ws,
      List.Forall₂ (fun m c => m.as_bind e.loc = some c) (e.inputs.filter (·.read_only)) setups ∧
      List.Forall₂ (fun m s => Mapping.to_string m = some s)
        (e.inputs.filter (fun m => !m.read_only)) ws ∧
      (∀ c ∈ setups, c.program = "bindfs") ∧
      cmds = setups ++ [⟨"proot", ["-r", e.loc, "-w", "/"] ++ bindArgs ws⟩] := by
  unfold Environment.as_commands at h
  cases hf : asCommandsFold e.loc e.inputs ([], []) with
  | none => rw [hf] at h; cases h
  | some acc =>
    rw [hf] at h
    obtain ⟨setups, ws, h₁, h₂, h₃⟩ := asCommandsFold_shape e.loc e.inputs [] [] acc hf
    refine ⟨setups, ws, h₁, h₂, forall₂_as_bind_program e.loc h₁, ?_⟩
    cases h
    rw [h₃]
    simp

/-- Witness for `env_as_commands_shape` at the environment of the
source's `as_commands` unit test (one writable, one read-only mapping). -/
theorem env_as_commands_shape_witness :
    ∃ setups ws,
      List.Forall₂ (fun m c => m.as_bind "/tmp/a b" = some c)
        (((Environment.mk 0 "/tmp/a b"
          [Mapping.from_fs "/tmp/b/3 3" none false,
           Mapping.from_fs "/tmp/c/7" none true]).inputs).filter (·.read_only)) setups ∧
      List.Forall₂ (fun m s => Mapping.to_string m = some s)
        (((Environment.mk 0 "/tmp/a b"
          [Mapping.from_fs "/tmp/b/3 3" none false,
           Mapping.from_fs "/tmp/c/7" none true]).inputs).filter (fun m => !m.read_only)) ws ∧
      (∀ c ∈ setups, c.program = "bindfs") ∧
      ([⟨"bindfs", ["--no-allow-other", "-r", "/tmp/c/7", "/tmp/c/7"]⟩,
        ⟨"proot", ["-r", "/tmp/a b", "-w", "/", "-b", "/tmp/b/3 3"]⟩] : List Command)
        = setups ++ [⟨"proot", ["-r", "/tmp/a b", "-w", "/"] ++ bindArgs ws⟩] :=
  env_as_commands_shape
    (Environment.mk 0 "/tmp/a b"
      [Mapping.from_fs "/tmp/b/3 3" none false, Mapping.from_fs "/tmp/c/7" none true])
    [⟨"bindfs", ["--no-allow-other", "-r", "/tmp/c/7", "/tmp/c/7"]⟩,
     ⟨"proot", ["-r", "/tmp/a b", "-w", "/", "-b", "/tmp/b/3 3"]⟩]
    (by decide)

/-- C7 (counterexample): the spec claims a read-only mapping without an
alias is mounted at the environment root joined with the **final
component** of the source path.  The code pushes the *entire* source
path onto the root (`PathBuf::push`), and since the source here is
absolute, the push replaces the root outright: the mount location is
`/tmp/c/7` itself, not `/tmp/a b/7` (the root joined with the final
component `7`).  This is also what the source's own `as_commands` unit
test asserts. -/
theorem mapping_as_bind_ignores_basename :
    (Mapping.from_fs "/tmp/c/7" none true).as_bind "/tmp/a b"
      = some ⟨"bindfs", ["--no-allow-other", "-r", "/tmp/c/7", "/tmp/c/7"]⟩ ∧
    ("/tmp/c/7" : String) ≠ pathPush "/tmp/a b" "7" := by
  constructor <;> decide

/-- C7 (amended): for a filesystem mapping with no alias, the mount
location of the generated `bindfs` setup command is the environment root
pushed with the **whole** source path under `PathBuf::push` semantics —
so an absolute source path replaces the root and becomes the mount
location itself. -/
theorem mapping_as_bind_joins_full_source (out_dir file : String) (ro : Bool) :
    (Mapping.mk ⟨none, file⟩ none ro).as_bind out_dir
      = some ⟨"bindfs", ["--no-allow-other", "-r", file, pathPush out_dir file]⟩ :=
  rfl

/-- Witness for `mapping_as_bind_joins_full_source` at a relative source
path, where the push really does join onto the root. -/
theorem mapping_as_bind_joins_full_source_witness :
    (Mapping.mk ⟨none, "sub/dir"⟩ none true).as_bind "/root dir"
      = some ⟨"bindfs", ["--no-allow-other", "-r", "sub/dir", pathPush "/root dir" "sub/dir"]⟩ :=
  mapping_as_bind_joins_full_source "/root dir" "sub/dir" true

/-- C9: `run_command` returns exactly the `as_commands` list except that
the final (sandbox-entry) command additionally carries the supplied
program name and then its argument list, appended verbatim at the end;
every other command is unchanged. -/
theorem env_run_command_appends (e : Environment) (c : Command) (cmds : List Command)
    (last : Command) (h : e.as_commands = some cmds) (hl : cmds.getLast? = some last) :
    e.run_command c
      = some (cmds.dropLast ++ [⟨last.program, last.args ++ [c.program] ++ c.args⟩]) := by
  unfold Environment.run_command
  rw [h, Option.map_some']
  unfold appendArgsToLast
  rw [hl]
  simp

/-- Witness for `env_run_command_appends` at the environment and action
of the source's `run_command` unit test. -/
theorem env_run_command_appends_witness :
    (Environment.mk 0 "/tmp/a" [Mapping.from_fs "/nix" none false]).run_command
      ⟨"echo", ["Hello, World!"]⟩
      = some [⟨"proot", ["-r", "/tmp/a", "-w", "/", "-b", "/nix", "echo", "Hello, World!"]⟩] :=
  env_run_command_appends
    (Environment.mk 0 "/tmp/a" [Mapping.from_fs "/nix" none false])
    ⟨"echo", ["Hello, World!"]⟩
    [⟨"proot", ["-r", "/tmp/a", "-w", "/", "-b", "/nix"]⟩]
    ⟨"proot", ["-r", "/tmp/a", "-w", "/", "-b", "/nix"]⟩
    (by decide) (by decide)

/-- Witness for `dag_no_deps_never_returns` at a concrete fuel bound. -/
theorem dag_no_deps_never_returns_witness :
    noDepDAG.transitive_reduction 7 = none :=
  dag_no_deps_never_returns 7

/-! ### The parsed package part is a verbatim slice of the label

Every sub-parser of the label pipeline returns the exact characters it
consumed, so whatever ends up in the `package` field of `ParsedParts` is
a contiguous, untouched slice of the label text.  These lemmas make that
explicit, feeding the universal form of the no-normalization theorem. -/

theorem tagColon_slice (input rem : List Char) (h : tagColon input = some rem) :
    ':' :: rem = input := by
  unfold tagColon at h
  split at h <;> cases h <;> rfl

